import Mathlib

/-!
Verification development for the photo preparation pipeline of
`src/nix-upload.py`.  The numeric parts of the source (dimension
computation, luminance, GPS conversion, coordinate formatting) are
embedded with exact rational arithmetic; Python's binary floating point
is idealised to `ℚ`, and `int()` on a nonnegative value is `Nat.floor`.
The per-image processing control flow is embedded as a total function
returning `Option` (a caught Python exception becomes `none`), with the
temporary directory's contents threaded explicitly as an association
list from output path to encoded byte size.
-/

namespace NixUpload

/-- Dimension computation of `image_resize_and_add_caption`
(src/nix-upload.py, lines 357-367).  `aspect_ratio = img_width / img_height`;
if `img_width / target_width > img_height / target_height` the width binds
(`new_width = target_width`, `new_height = int(new_width / aspect_ratio)`),
otherwise the height binds (`new_height = target_height`,
`new_width = int(new_height * aspect_ratio)`).  Python's `int()` truncates
toward zero, which on these nonnegative values is the natural floor. -/
def resize_dims (imgWidth imgHeight targetWidth targetHeight : ℕ) : ℕ × ℕ :=
  let aspect_ratio : ℚ := (imgWidth : ℚ) / (imgHeight : ℚ)
  if (imgWidth : ℚ) / (targetWidth : ℚ) > (imgHeight : ℚ) / (targetHeight : ℚ) then
    (targetWidth, ⌊(targetWidth : ℚ) / aspect_ratio⌋₊)
  else
    (⌊(targetHeight : ℚ) * aspect_ratio⌋₊, targetHeight)

lemma floor_natCast_div (a b : ℕ) : ⌊((a : ℚ)) / ((b : ℕ) : ℚ)⌋₊ = a / b := by
  rw [Nat.floor_div_nat, Nat.floor_natCast]

/-- The rational-arithmetic definition of `resize_dims` computes, in natural
number arithmetic: the binding test is `imgHeight * targetWidth <
imgWidth * targetHeight`, and the derived dimension is a truncating natural
division. -/
lemma resize_dims_eq (w h tw th : ℕ) (hw : 0 < w) (hh : 0 < h)
    (htw : 0 < tw) (hth : 0 < th) :
    resize_dims w h tw th =
      if h * tw < w * th then (tw, tw * h / w) else (th * w / h, th) := by
  have hwQ : (0 : ℚ) < w := by exact_mod_cast hw
  have hhQ : (0 : ℚ) < h := by exact_mod_cast hh
  have htwQ : (0 : ℚ) < tw := by exact_mod_cast htw
  have hthQ : (0 : ℚ) < th := by exact_mod_cast hth
  have hcond : ((h : ℚ) / (th : ℚ) < (w : ℚ) / (tw : ℚ)) ↔ h * tw < w * th := by
    rw [div_lt_div_iff₀ hthQ htwQ]
    norm_cast
  by_cases hc : h * tw < w * th
  · rw [if_pos hc]
    unfold resize_dims
    rw [if_pos (by simpa [gt_iff_lt] using hcond.mpr hc)]
    have hrw : (tw : ℚ) / ((w : ℚ) / (h : ℚ)) = ((tw * h : ℕ) : ℚ) / ((w : ℕ) : ℚ) := by
      rw [div_div_eq_mul_div]
      push_cast
      ring
    rw [hrw, floor_natCast_div]
  · rw [if_neg hc]
    unfold resize_dims
    rw [if_neg (by simpa [gt_iff_lt, hcond] using hc)]
    have hrw : (th : ℚ) * ((w : ℚ) / (h : ℚ)) = ((th * w : ℕ) : ℚ) / ((h : ℕ) : ℚ) := by
      rw [mul_div_assoc']
      push_cast
      ring
    rw [hrw, floor_natCast_div]

/-- C2: the claim as written uses `round` for the derived dimension; the code
truncates.  A corrected statement: for positive source dimensions and
positive targets, if `imgWidth * targetHeight > imgHeight * targetWidth` then
`newWidth = targetWidth` and `newHeight = ⌊newWidth / aspectRatio⌋` (truncating
natural division `targetWidth * imgHeight / imgWidth`); otherwise
`newHeight = targetHeight` and `newWidth = ⌊newHeight * aspectRatio⌋`
(`targetHeight * imgWidth / imgHeight`). -/
theorem C2_resize_formula (w h tw th : ℕ) (hw : 0 < w) (hh : 0 < h)
    (htw : 0 < tw) (hth : 0 < th) :
    resize_dims w h tw th =
      if h * tw < w * th then (tw, tw * h / w) else (th * w / h, th) :=
  resize_dims_eq w h tw th hw hh htw hth

/-- C2 counterexample: a 5×3 source resized into a 3×3 target.  The code's
truncation gives height `⌊9/5⌋ = 1`, while the claimed `round(newWidth /
aspectRatio) = round(9/5) = 2`. -/
theorem C2_round_counterexample :
    (resize_dims 5 3 3 3).2 ≠ (round ((3 : ℚ) / ((5 : ℚ) / (3 : ℚ)))).toNat ∧
      (resize_dims 5 3 3 3).2 = 1 ∧
      round ((3 : ℚ) / ((5 : ℚ) / (3 : ℚ))) = 2 := by
  have h1 : (resize_dims 5 3 3 3).2 = 1 := by
    rw [resize_dims_eq 5 3 3 3 (by norm_num) (by norm_num) (by norm_num) (by norm_num)]
    norm_num
  have h2 : round ((3 : ℚ) / ((5 : ℚ) / (3 : ℚ))) = 2 := by
    have hv : (3 : ℚ) / ((5 : ℚ) / (3 : ℚ)) = 9 / 5 := by norm_num
    rw [hv, round_eq, show (9 : ℚ) / 5 + 1 / 2 = 23 / 10 by norm_num, Int.floor_eq_iff]
    constructor <;> norm_num
  refine ⟨?_, h1, h2⟩
  rw [h1, h2]
  decide

/-- C2 witness: the corrected formula evaluated at the 5×3 source with 3×3
target. -/
theorem C2_resize_formula_witness :
    (0 < 5 ∧ 0 < 3) ∧
      resize_dims 5 3 3 3 =
        if 3 * 3 < 5 * 3 then (3, 3 * 3 / 5) else (3 * 5 / 3, 3) :=
  ⟨⟨by decide, by decide⟩,
    C2_resize_formula 5 3 3 3 (by decide) (by decide) (by decide) (by decide)⟩

/-- C3 counterexample: a 2×2 source resized into a 2×2 target gives final
dimensions (2, 2): both final dimensions equal their targets, so "exactly one
of the two final dimensions equals its target" fails (both do), although both
bounds hold. -/
theorem C3_exactly_one_counterexample :
    resize_dims 2 2 2 2 = (2, 2) ∧
      ¬(((resize_dims 2 2 2 2).1 = 2 ∧ (resize_dims 2 2 2 2).2 ≠ 2) ∨
        ((resize_dims 2 2 2 2).1 ≠ 2 ∧ (resize_dims 2 2 2 2).2 = 2)) := by
  have h : resize_dims 2 2 2 2 = (2, 2) := by
    rw [resize_dims_eq 2 2 2 2 (by norm_num) (by norm_num) (by norm_num) (by norm_num)]
    norm_num
  refine ⟨h, ?_⟩
  rw [h]
  simp

/-- C3 (amended): for positive source dimensions and positive targets, the
final width is at most the target width, the final height is at most the
target height, and at least one of the two equals its target; both equal
their targets exactly when the source and target aspect ratios coincide
(`imgWidth * targetHeight = imgHeight * targetWidth`), and otherwise exactly
one does. -/
theorem C3_resize_invariant (w h tw th : ℕ) (hw : 0 < w) (hh : 0 < h)
    (htw : 0 < tw) (hth : 0 < th) :
    (resize_dims w h tw th).1 ≤ tw ∧ (resize_dims w h tw th).2 ≤ th ∧
      ((resize_dims w h tw th).1 = tw ∨ (resize_dims w h tw th).2 = th) ∧
      (((resize_dims w h tw th).1 = tw ∧ (resize_dims w h tw th).2 = th) ↔
        w * th = h * tw) := by
  rw [resize_dims_eq w h tw th hw hh htw hth]
  by_cases hc : h * tw < w * th
  · rw [if_pos hc]
    have hlt : tw * h < th * w := by
      rw [mul_comm tw h, mul_comm th w]
      exact hc
    have hdiv : tw * h / w < th := by
      rw [Nat.div_lt_iff_lt_mul hw]
      exact hlt
    refine ⟨le_refl tw, le_of_lt hdiv, Or.inl rfl, ?_⟩
    constructor
    · rintro ⟨-, h2⟩
      exact absurd h2 (Nat.ne_of_lt hdiv)
    · intro heq
      exact absurd heq (Nat.ne_of_gt hc)
  · rw [if_neg hc]
    have hle : w * th ≤ h * tw := Nat.le_of_not_lt hc
    have hle' : th * w ≤ tw * h := by
      rw [mul_comm th w, mul_comm tw h]
      exact hle
    have hdivle : th * w / h ≤ tw := by
      calc th * w / h ≤ tw * h / h := Nat.div_le_div_right hle'
        _ = tw := Nat.mul_div_cancel tw hh
    refine ⟨hdivle, le_refl th, Or.inr rfl, ?_⟩
    constructor
    · rintro ⟨h1, -⟩
      by_contra hne
      have hstrict : w * th < h * tw := lt_of_le_of_ne hle hne
      have hstrict' : th * w < tw * h := by
        rw [mul_comm th w, mul_comm tw h]
        exact hstrict
      have : th * w / h < tw := by
        rw [Nat.div_lt_iff_lt_mul hh]
        exact hstrict'
      exact absurd h1 (Nat.ne_of_lt this)
    · intro heq
      have heq' : th * w = tw * h := by
        rw [mul_comm th w, mul_comm tw h]
        exact heq
      refine ⟨?_, rfl⟩
      rw [heq', Nat.mul_div_cancel tw hh]

/-- C3 witness: the amended invariant evaluated at a 5×3 source with a 3×3
target (final dimensions (3, 1): width binds, height strictly below target). -/
theorem C3_resize_invariant_witness :
    (0 < 5 ∧ 0 < 3) ∧
      ((resize_dims 5 3 3 3).1 ≤ 3 ∧ (resize_dims 5 3 3 3).2 ≤ 3 ∧
        ((resize_dims 5 3 3 3).1 = 3 ∨ (resize_dims 5 3 3 3).2 = 3) ∧
        (((resize_dims 5 3 3 3).1 = 3 ∧ (resize_dims 5 3 3 3).2 = 3) ↔
          5 * 3 = 3 * 3)) :=
  ⟨⟨by decide, by decide⟩,
    C3_resize_invariant 5 3 3 3 (by decide) (by decide) (by decide) (by decide)⟩

/-- Conversion of a (degrees, minutes, seconds) triple to decimal degrees
(src/nix-upload.py, lines 250-255): `d + m / 60 + s / 3600`. -/
def _convert_to_degrees (v : ℚ × ℚ × ℚ) : ℚ :=
  v.1 + v.2.1 / 60 + v.2.2 / 3600

/-- GPS-relevant EXIF fields of one image, as extracted by the tag loop of
`_get_gps_coordinates` (src/nix-upload.py, lines 264-284): each field is
`none` when the corresponding tag is absent from the EXIF block. -/
structure ExifGps where
  gpsLatitude : Option (ℚ × ℚ × ℚ)
  gpsLatitudeRef : Option String
  gpsLongitude : Option (ℚ × ℚ × ℚ)
  gpsLongitudeRef : Option String
deriving DecidableEq

/-- GPS coordinate extraction (src/nix-upload.py, lines 286-298).  When both
coordinate triples are present, each is converted to decimal degrees; the
latitude is negated when the latitude reference is not exactly the string
`N` (including when the reference tag is absent), and the longitude is
negated when its reference is not exactly `E`. -/
def _get_gps_coordinates (e : ExifGps) : Option (ℚ × ℚ) :=
  match e.gpsLatitude, e.gpsLongitude with
  | some glat, some glon =>
    let lat := _convert_to_degrees glat
    let lon := _convert_to_degrees glon
    let lat := if e.gpsLatitudeRef ≠ some "N" then -lat else lat
    let lon := if e.gpsLongitudeRef ≠ some "E" then -lon else lon
    some (lat, lon)
  | _, _ => none

/-- C9: when both GPS coordinate triples are present, coordinates are always
returned (a missing hemisphere reference never omits the location), the
latitude is negated exactly when the latitude reference differs from the
string `N` (including an absent reference), and the longitude is negated
exactly when its reference differs from `E`. -/
theorem C9_gps_hemisphere_sign (e : ExifGps) (glat glon : ℚ × ℚ × ℚ)
    (hlat : e.gpsLatitude = some glat) (hlon : e.gpsLongitude = some glon) :
    _get_gps_coordinates e =
      some
        ((if e.gpsLatitudeRef = some "N" then _convert_to_degrees glat
          else -_convert_to_degrees glat),
         (if e.gpsLongitudeRef = some "E" then _convert_to_degrees glon
          else -_convert_to_degrees glon)) := by
  rcases e with ⟨elat, elatRef, elon, elonRef⟩
  simp only at hlat hlon
  subst hlat
  subst hlon
  by_cases h1 : elatRef = some "N" <;> by_cases h2 : elonRef = some "E" <;>
    simp [_get_gps_coordinates, h1, h2]

/-- Concrete EXIF block for the C9 witness: both triples present, latitude
reference tag entirely absent, longitude reference `W`. -/
def exifW : ExifGps :=
  ⟨some (40, 26, 46), none, some (79, 56, 55), some "W"⟩

/-- C9 witness: the spec's test vector lat (40, 26, 46), lon (79, 56, 55)
with an absent latitude reference and longitude reference `W` yields
coordinates `(-72803/1800, -57563/720) ≈ (-40.446, -79.949)`: the absent
latitude reference silently produces a South coordinate. -/
theorem C9_gps_hemisphere_sign_witness :
    exifW.gpsLatitude = some ((40 : ℚ), (26 : ℚ), (46 : ℚ)) ∧
      exifW.gpsLongitude = some ((79 : ℚ), (56 : ℚ), (55 : ℚ)) ∧
      _get_gps_coordinates exifW =
        some
          ((if exifW.gpsLatitudeRef = some "N" then
              _convert_to_degrees (40, 26, 46)
            else -_convert_to_degrees (40, 26, 46)),
           (if exifW.gpsLongitudeRef = some "E" then
              _convert_to_degrees (79, 56, 55)
            else -_convert_to_degrees (79, 56, 55))) ∧
      _get_gps_coordinates exifW =
        some (-(72803 / 1800 : ℚ), -(57563 / 720 : ℚ)) :=
  ⟨rfl, rfl, C9_gps_hemisphere_sign exifW (40, 26, 46) (79, 56, 55) rfl rfl, by
    have hW : ("W" : String) = "E" ↔ False := by
      constructor <;> intro h <;> simp_all
    simp only [exifW, _get_gps_coordinates, ne_eq, reduceCtorEq,
      not_false_eq_true, if_true, Option.some.injEq, hW, Prod.mk.injEq]
    constructor <;> norm_num [_convert_to_degrees]⟩

/-- Left pad with zero digits to four characters, for the fractional part of
the coordinate fallback string. -/
def pad4 (n : ℕ) : String :=
  let s := toString n
  String.mk (List.replicate (4 - s.length) '0') ++ s

/-- Decimal rendering of a coordinate with four fractional digits, as
produced by the Python format specifier `%.4f` inside
`_get_location_name` (src/nix-upload.py, lines 327, 332, 337, 343).
The magnitude is scaled by 10000 and rounded half-up, computed on the exact
rational through its numerator and denominator:
`round(|q| * 10000) = ⌊(2 * |num| * 10000 + den) / (2 * den)⌋`
(CPython rounds the underlying binary double half-to-even; the two agree on
every value exercised here, and the spec's own examples are exact). -/
def format4 (q : ℚ) : String :=
  let n : ℤ := if q.num < 0 then -q.num else q.num
  let scaled : ℕ := ((2 * (n * 10000) + (q.den : ℤ)) / (2 * (q.den : ℤ))).toNat
  (if q.num < 0 then "-" else "") ++ toString (scaled / 10000) ++ "." ++
    pad4 (scaled % 10000)

/-- Outcome of the reverse-geocoding collaborator as observed by
`_get_location_name` (src/nix-upload.py, lines 300-346): a successful lookup
carries the optional `city`/`town`/`village` address components and the full
formatted address; `noAddress` is a lookup that completed but produced no
usable address; the remaining constructors are the exception classes the
function distinguishes (`GeocoderTimedOut`, `GeocoderUnavailable`,
`RequestException`, and any other exception reaching the outer handler). -/
inductive GeoOutcome where
  | found (city town village : Option String) (displayAddress : String)
  | noAddress
  | timedOut
  | unavailable
  | transportFailed
  | otherFailure
deriving DecidableEq

/-- Python truthiness of an optional string: `None` and the empty string are
falsy, mirroring `address.get(...) or ...` chains and `if city:`. -/
def pythonTruthy : Option String → Option String
  | some s => if s.isEmpty then none else some s
  | none => none

/-- Place-name resolution `_get_location_name` (src/nix-upload.py, lines
300-346).  On a successful lookup with an address, the first truthy of
city/town/village is returned, else the first comma-delimited segment of the
full address; every failure path — the three named exception classes in the
inner handler and any other exception in the outer handler — returns the
formatted coordinate fallback; `none` is returned only when the lookup
completes without a usable address. -/
def _get_location_name (lat lon : ℚ) (outcome : GeoOutcome) : Option String :=
  match outcome with
  | .found city town village displayAddress =>
    match pythonTruthy city with
    | some c => some c
    | none =>
      match pythonTruthy town with
      | some t => some t
      | none =>
        match pythonTruthy village with
        | some v => some v
        | none => some ((displayAddress.splitOn ",").headD "")
  | .noAddress => none
  | .timedOut => some (format4 lat ++ ", " ++ format4 lon)
  | .unavailable => some (format4 lat ++ ", " ++ format4 lon)
  | .transportFailed => some (format4 lat ++ ", " ++ format4 lon)
  | .otherFailure => some (format4 lat ++ ", " ++ format4 lon)

/-- C5 counterexample: for coordinates (12.34, 56.78), an unexpected failure
(any exception other than the three named classes) does not yield "no
location" — the code's outer handler also falls back to the formatted
coordinate string. -/
theorem C5_other_failure_counterexample :
    _get_location_name (1234 / 100 : ℚ) (5678 / 100 : ℚ)
        GeoOutcome.otherFailure ≠ none ∧
      _get_location_name (1234 / 100 : ℚ) (5678 / 100 : ℚ)
          GeoOutcome.otherFailure = some "12.3400, 56.7800" := by
  have he1 : (1234 / 100 : ℚ) = Rat.divInt 1234 100 := by
    rw [Rat.divInt_eq_div]
    norm_num
  have he2 : (5678 / 100 : ℚ) = Rat.divInt 5678 100 := by
    rw [Rat.divInt_eq_div]
    norm_num
  have h : _get_location_name (1234 / 100 : ℚ) (5678 / 100 : ℚ)
      GeoOutcome.otherFailure = some "12.3400, 56.7800" := by
    rw [he1, he2]
    decide
  exact ⟨by rw [h]; simp, h⟩

/-- C5 (amended): every failure of the place-name resolution — provider
timeout, provider unavailable, transport failure, and any other unexpected
failure — yields the fallback string formed from the two coordinates with
four decimal places; no location at all is produced only when the lookup
completes without a usable address. -/
theorem C5_geocode_fallback (lat lon : ℚ) :
    _get_location_name lat lon GeoOutcome.timedOut =
        some (format4 lat ++ ", " ++ format4 lon) ∧
      _get_location_name lat lon GeoOutcome.unavailable =
        some (format4 lat ++ ", " ++ format4 lon) ∧
      _get_location_name lat lon GeoOutcome.transportFailed =
        some (format4 lat ++ ", " ++ format4 lon) ∧
      _get_location_name lat lon GeoOutcome.otherFailure =
        some (format4 lat ++ ", " ++ format4 lon) ∧
      _get_location_name lat lon GeoOutcome.noAddress = none :=
  ⟨rfl, rfl, rfl, rfl, rfl⟩

/-- A resized RGB image: dimensions plus a pixel function returning the
(R, G, B) channel values (each 0..255) at column x, row y.  This models
`resized_img` of `image_resize_and_add_caption` after the RGB conversion
(src/nix-upload.py, lines 370-374). -/
structure Img where
  width : ℕ
  height : ℕ
  pix : ℕ → ℕ → ℕ × ℕ × ℕ

/-- Height of the sampled background rectangle:
`sample_height = int(new_height * 0.1)` (src/nix-upload.py, line 380).
The float literal `0.1` is idealised to the exact rational 1/10. -/
def sample_height (newHeight : ℕ) : ℕ :=
  ⌊(newHeight : ℚ) * (1 / 10 : ℚ)⌋₊

lemma sample_height_eq (h : ℕ) : sample_height h = h / 10 := by
  unfold sample_height
  have hq : (h : ℚ) * (1 / 10 : ℚ) = (h : ℚ) / ((10 : ℕ) : ℚ) := by
    push_cast
    ring
  rw [hq, Nat.floor_div_nat, Nat.floor_natCast]

/-- Row indices of the sampled rectangle
`resized_img.crop((0, new_height - sample_height, new_width, new_height))`
(src/nix-upload.py, line 381): the bottom `sample_height` rows. -/
def bottom_rows (img : Img) : List ℕ :=
  (List.range (sample_height img.height)).map
    (fun y => img.height - sample_height img.height + y)

/-- Sum of one color channel over the sampled bottom rectangle (all columns
of the bottom rows). -/
def channel_sum (img : Img) (f : ℕ × ℕ × ℕ → ℕ) : ℕ :=
  ((bottom_rows img).map
    (fun y => ((List.range img.width).map (fun x => f (img.pix x y))).sum)).sum

/-- Number of pixels in the sampled rectangle. -/
def sample_count (img : Img) : ℕ :=
  img.width * sample_height img.height

/-- Average background color
`avg_color = sample_region.resize((1, 1)).getpixel((0, 0))`
(src/nix-upload.py, line 382).  Modelled from the spec: the library's
reduction of the sampled rectangle to a single pixel is idealised to the
exact per-channel arithmetic mean over that rectangle. -/
def avg_color (img : Img) : ℚ × ℚ × ℚ :=
  ((channel_sum img (fun c => c.1) : ℚ) / (sample_count img : ℚ),
   (channel_sum img (fun c => c.2.1) : ℚ) / (sample_count img : ℚ),
   (channel_sum img (fun c => c.2.2) : ℚ) / (sample_count img : ℚ))

/-- Relative luminance of a color
`(0.299 * avg[0] + 0.587 * avg[1] + 0.114 * avg[2]) / 255`
(src/nix-upload.py, line 385), with the float coefficients as exact
rationals. -/
def luminance (c : ℚ × ℚ × ℚ) : ℚ :=
  (299 / 1000 * c.1 + 587 / 1000 * c.2.1 + 114 / 1000 * c.2.2) / 255

/-- Caption text color (src/nix-upload.py, line 386): black when the
background luminance exceeds 1/2, else white. -/
def text_color (img : Img) : ℕ × ℕ × ℕ :=
  if luminance (avg_color img) > 1 / 2 then (0, 0, 0) else (255, 255, 255)

/-- Caption outline color (src/nix-upload.py, line 439): the opposite of the
text color. -/
def outline_color (img : Img) : ℕ × ℕ × ℕ :=
  if text_color img = (255, 255, 255) then (0, 0, 0) else (255, 255, 255)

/-- Vertical origin of the caption block (src/nix-upload.py, lines 431-436):
`new_height - lineCount * fontSize * 1.2 - 100` for position `bottom`,
else `100`; the float `1.2` is the exact rational 12/10. -/
def caption_y (newHeight lineCount fontSize : ℕ) (pos : String) : ℚ :=
  if pos = "bottom" then
    (newHeight : ℚ) - (lineCount : ℚ) * (fontSize : ℚ) * (12 / 10 : ℚ) - 100
  else 100

/-- Caption rendering parameters computed by the caption branch of
`image_resize_and_add_caption` (src/nix-upload.py, lines 377-448): text
color, outline color, and vertical block origin.  Only the origin depends
on the configured caption position; the colors come from the bottom sample
in every case. -/
def caption_params (img : Img) (pos : String) (lineCount fontSize : ℕ) :
    (ℕ × ℕ × ℕ) × (ℕ × ℕ × ℕ) × ℚ :=
  (text_color img, outline_color img, caption_y img.height lineCount fontSize pos)

lemma luminance_gt_half_iff (img : Img) (hw : 0 < img.width)
    (hh : 10 ≤ img.height) :
    (luminance (avg_color img) > 1 / 2 ↔
      255000 * sample_count img <
        2 * (299 * channel_sum img (fun c => c.1) +
             587 * channel_sum img (fun c => c.2.1) +
             114 * channel_sum img (fun c => c.2.2))) := by
  have hshpos : 0 < sample_height img.height := by
    rw [sample_height_eq]
    exact (Nat.one_le_div_iff (by norm_num)).mpr hh
  have hcnt : 0 < sample_count img := Nat.mul_pos hw hshpos
  have hcntQ : (0 : ℚ) < (sample_count img : ℚ) := by exact_mod_cast hcnt
  have hlum : luminance (avg_color img) =
      ((299 * channel_sum img (fun c => c.1) +
        587 * channel_sum img (fun c => c.2.1) +
        114 * channel_sum img (fun c => c.2.2) : ℕ) : ℚ) /
        ((255000 * sample_count img : ℕ) : ℚ) := by
    have hne : ((sample_count img : ℕ) : ℚ) ≠ 0 := ne_of_gt hcntQ
    unfold luminance avg_color
    push_cast
    rw [div_eq_div_iff (by norm_num) (by positivity)]
    field_simp
    ring
  rw [gt_iff_lt, hlum, div_lt_div_iff₀ (by norm_num : (0 : ℚ) < 2)
    (by positivity)]
  rw [show (1 : ℚ) * ((255000 * sample_count img : ℕ) : ℚ) =
    ((255000 * sample_count img : ℕ) : ℚ) by ring]
  rw [show ((299 * channel_sum img (fun c => c.1) +
        587 * channel_sum img (fun c => c.2.1) +
        114 * channel_sum img (fun c => c.2.2) : ℕ) : ℚ) * 2 =
    ((2 * (299 * channel_sum img (fun c => c.1) +
        587 * channel_sum img (fun c => c.2.1) +
        114 * channel_sum img (fun c => c.2.2)) : ℕ) : ℚ) by push_cast; ring]
  exact_mod_cast Iff.rfl

/-- C6: the caption colors are chosen from the per-channel mean of the
rectangle covering the bottom 10% of the resized image (rows
`height - height/10` to `height - 1`, sampled from the bottom regardless of
the configured caption position), and with luminance
`L = (0.299 R + 0.587 G + 0.114 B) / 255` over that mean: text is black with
white outline exactly when `L > 1/2` — equivalently
`255000 * pixelCount < 2 * (299 ΣR + 587 ΣG + 114 ΣB)` — and white with
black outline otherwise. -/
theorem C6_caption_color_choice (img : Img) (pos pos' : String)
    (n fs n' fs' : ℕ) (hw : 0 < img.width) (hh : 10 ≤ img.height) :
    ((caption_params img pos n fs).1 = (caption_params img pos' n' fs').1 ∧
      (caption_params img pos n fs).2.1 = (caption_params img pos' n' fs').2.1) ∧
    sample_height img.height = img.height / 10 ∧
    bottom_rows img =
      List.range' (img.height - img.height / 10) (img.height / 10) ∧
    (text_color img = (0, 0, 0) ∧ outline_color img = (255, 255, 255) ↔
      255000 * sample_count img <
        2 * (299 * channel_sum img (fun c => c.1) +
             587 * channel_sum img (fun c => c.2.1) +
             114 * channel_sum img (fun c => c.2.2))) ∧
    (text_color img = (255, 255, 255) ∧ outline_color img = (0, 0, 0) ↔
      2 * (299 * channel_sum img (fun c => c.1) +
           587 * channel_sum img (fun c => c.2.1) +
           114 * channel_sum img (fun c => c.2.2)) ≤
        255000 * sample_count img) := by
  have hkey := luminance_gt_half_iff img hw hh
  refine ⟨⟨rfl, rfl⟩, sample_height_eq _, ?_, ?_, ?_⟩
  · unfold bottom_rows
    rw [sample_height_eq, List.range'_eq_map_range]
  · by_cases hb : luminance (avg_color img) > 1 / 2
    · have ht : text_color img = (0, 0, 0) := by
        unfold text_color
        rw [if_pos hb]
      have ho : outline_color img = (255, 255, 255) := by
        unfold outline_color
        rw [ht, if_neg (by decide)]
      exact iff_of_true ⟨ht, ho⟩ (hkey.mp hb)
    · have ht : text_color img = (255, 255, 255) := by
        unfold text_color
        rw [if_neg hb]
      refine iff_of_false ?_ (fun hr => hb (hkey.mpr hr))
      rintro ⟨h1, -⟩
      rw [ht] at h1
      exact absurd h1 (by decide)
  · by_cases hb : luminance (avg_color img) > 1 / 2
    · have ht : text_color img = (0, 0, 0) := by
        unfold text_color
        rw [if_pos hb]
      refine iff_of_false ?_ ?_
      · rintro ⟨h1, -⟩
        rw [ht] at h1
        exact absurd h1 (by decide)
      · intro hr
        exact absurd (hkey.mp hb) (Nat.not_lt.mpr hr)
    · have ht : text_color img = (255, 255, 255) := by
        unfold text_color
        rw [if_neg hb]
      have ho : outline_color img = (0, 0, 0) := by
        unfold outline_color
        rw [ht, if_pos rfl]
      refine iff_of_true ⟨ht, ho⟩ ?_
      exact Nat.not_lt.mp (fun hlt => hb (hkey.mpr hlt))

/-- Concrete all-white 1×10 image for the C6 witness. -/
def imgWhite : Img :=
  ⟨1, 10, fun _ _ => (255, 255, 255)⟩

/-- C6 witness: on an all-white 1×10 image (bottom sample one pure white
pixel, luminance 1 > 1/2) the text is black and the outline white, for both
caption positions. -/
theorem C6_caption_color_choice_witness :
    (0 < imgWhite.width ∧ 10 ≤ imgWhite.height) ∧
      (((caption_params imgWhite "top" 1 50).1 =
          (caption_params imgWhite "bottom" 2 40).1 ∧
        (caption_params imgWhite "top" 1 50).2.1 =
          (caption_params imgWhite "bottom" 2 40).2.1) ∧
      sample_height imgWhite.height = imgWhite.height / 10 ∧
      bottom_rows imgWhite =
        List.range' (imgWhite.height - imgWhite.height / 10)
          (imgWhite.height / 10) ∧
      (text_color imgWhite = (0, 0, 0) ∧
          outline_color imgWhite = (255, 255, 255) ↔
        255000 * sample_count imgWhite <
          2 * (299 * channel_sum imgWhite (fun c => c.1) +
               587 * channel_sum imgWhite (fun c => c.2.1) +
               114 * channel_sum imgWhite (fun c => c.2.2))) ∧
      (text_color imgWhite = (255, 255, 255) ∧
          outline_color imgWhite = (0, 0, 0) ↔
        2 * (299 * channel_sum imgWhite (fun c => c.1) +
             587 * channel_sum imgWhite (fun c => c.2.1) +
             114 * channel_sum imgWhite (fun c => c.2.2)) ≤
          255000 * sample_count imgWhite)) :=
  ⟨⟨by decide, by decide⟩,
    C6_caption_color_choice imgWhite "top" "bottom" 1 50 2 40
      (by decide) (by decide)⟩

/-- One selected source image, abstracted to the fields that drive the
control flow of `image_resize_and_add_caption` (src/nix-upload.py, lines
348-472): `basename` is `os.path.basename(image_path)`; `raisesError`
models any exception raised while decoding, resizing, captioning or saving
this image (all such exceptions are caught by the handler at lines 470-472);
`encodedSize` is the byte size of the encoded output file written by `save`
(lines 456-460), treated as an oracle since it depends on the codec. -/
structure ImgFile where
  basename : String
  raisesError : Bool
  encodedSize : ℕ
deriving DecidableEq

/-- Contents of the temporary output directory: an association list from
output path to the byte size of the file at that path. -/
abbrev FS := List (String × ℕ)

/-- Write (or overwrite) the file at path `p`. -/
def fs_set (fs : FS) (p : String) (sz : ℕ) : FS :=
  (p, sz) :: fs.filter (fun e => e.1 != p)

/-- Remove the file at path `p`, as `os.remove` does
(src/nix-upload.py, line 465). -/
def fs_remove (fs : FS) (p : String) : FS :=
  fs.filter (fun e => e.1 != p)

/-- Size of the file at path `p`, as `os.path.getsize` observes it
(src/nix-upload.py, line 463); `none` when no such file exists. -/
def fs_get (fs : FS) (p : String) : Option ℕ :=
  (fs.find? (fun e => e.1 == p)).map Prod.snd

/-- Output path `os.path.join(temp_dir, os.path.basename(image_path))`
(src/nix-upload.py, lines 453-454). -/
def output_path (tempDir : String) (img : ImgFile) : String :=
  tempDir ++ "/" ++ img.basename

/-- Control flow of `image_resize_and_add_caption` (src/nix-upload.py,
lines 348-472), with the pixel work abstracted into the `ImgFile` fields
(the target dimensions only influence the pixels, so they are omitted
here; the dimension arithmetic itself is `resize_dims` above).  Any
exception inside the body is caught (lines 470-472) and yields `none`
with the directory unchanged; otherwise the encoded output is written to
`output_path`, and if its size exceeds `max_file_size` the file is removed
(line 465) and `none` is returned (line 466), else the path is returned
(line 468).  The function is total: no exception propagates. -/
def image_resize_and_add_caption (img : ImgFile) (tempDir : String)
    (max_file_size : ℕ) (fs : FS) : Option String × FS :=
  if img.raisesError then (none, fs)
  else
    let outputPath := output_path tempDir img
    let fs1 := fs_set fs outputPath img.encodedSize
    if max_file_size < img.encodedSize then (none, fs_remove fs1 outputPath)
    else (some outputPath, fs1)

/-- Selection step of `get_image_files` (src/nix-upload.py, lines 204-209):
when there are more candidates than `max_photos`, `random.sample` picks
`max_photos` distinct entries (the sampler is an oracle parameter, since it
is external library randomness); otherwise the candidate list is used
unchanged. -/
def select_images (sample : List ImgFile → ℕ → List ImgFile)
    (image_files : List ImgFile) (max_photos : ℕ) : List ImgFile :=
  if max_photos < image_files.length then sample image_files max_photos
  else image_files

/-- Per-image loop of `get_image_files` (src/nix-upload.py, lines 218-241):
processes each selected image in order, appends accepted output paths to
`final_images`, and after every image — accepted or skipped — calls
`display_progress_bar("Resizing", start_time, 0, i + 1, max_photos)`
(line 237), recorded here as the progress event `(i + 1, max_photos)`
(elapsed wall-clock seconds are real time and are not modelled).  Returns
(final_images, progress events, final temp-directory contents). -/
def process_loop (tempDir : String) (max_file_size max_photos : ℕ) :
    List ImgFile → ℕ → FS → List String × List (ℕ × ℕ) × FS
  | [], _, fs => ([], [], fs)
  | img :: rest, i, fs =>
    let r := image_resize_and_add_caption img tempDir max_file_size fs
    let res := process_loop tempDir max_file_size max_photos rest (i + 1) r.2
    ((match r.1 with
      | some p => p :: res.1
      | none => res.1),
     (i + 1, max_photos) :: res.2.1,
     res.2.2)

/-- `get_image_files` after directory traversal (src/nix-upload.py, lines
204-241): select, then process each selected image. -/
def get_image_files (sample : List ImgFile → ℕ → List ImgFile)
    (tempDir : String) (max_file_size max_photos : ℕ)
    (image_files : List ImgFile) (fs : FS) :
    List String × List (ℕ × ℕ) × FS :=
  process_loop tempDir max_file_size max_photos
    (select_images sample image_files max_photos) 0 fs

/-- An image is accepted exactly when its processing raises no exception and
its encoded output fits the size budget. -/
def accepted (max_file_size : ℕ) (img : ImgFile) : Bool :=
  !img.raisesError && decide (img.encodedSize ≤ max_file_size)

lemma fs_get_set (fs : FS) (p : String) (sz : ℕ) :
    fs_get (fs_set fs p sz) p = some sz := by
  simp [fs_get, fs_set, List.find?]

lemma fs_get_remove (fs : FS) (p : String) :
    fs_get (fs_remove fs p) p = none := by
  unfold fs_get fs_remove
  rw [Option.map_eq_none', List.find?_eq_none]
  intro x hx
  have hxp := List.of_mem_filter hx
  simp only [bne_iff_ne, ne_eq] at hxp
  simp only [beq_iff_eq]
  exact hxp

lemma process_loop_finals (tempDir : String) (max_file_size max_photos : ℕ)
    (l : List ImgFile) :
    ∀ (i : ℕ) (fs : FS),
      (process_loop tempDir max_file_size max_photos l i fs).1 =
        (l.filter (accepted max_file_size)).map (output_path tempDir) := by
  induction l with
  | nil => intro i fs; rfl
  | cons img rest ih =>
    intro i fs
    by_cases hr : img.raisesError
    · simp [process_loop, image_resize_and_add_caption, hr, accepted, ih]
    · by_cases hsz : max_file_size < img.encodedSize
      · simp [process_loop, image_resize_and_add_caption, hr, hsz, accepted,
          ih, Nat.not_le.mpr hsz]
      · simp [process_loop, image_resize_and_add_caption, hr, hsz, accepted,
          ih, Nat.not_lt.mp hsz]

/-- C1: an image whose encoded output exceeds the configured maximum yields
`none` (it is absent from the accepted outputs) with the written output
file removed, no exception reaching the caller (the embedded function is
total); consequently every path in the returned accepted-output sequence is
the output path of some selected image that raised no exception and whose
encoded size is within the budget. -/
theorem C1_size_budget_enforced (tempDir : String)
    (max_file_size max_photos : ℕ) (img : ImgFile) (fs : FS)
    (selected : List ImgFile) (fs0 : FS) (p : String)
    (hr : img.raisesError = false) (hsz : max_file_size < img.encodedSize)
    (hp : p ∈ (process_loop tempDir max_file_size max_photos selected 0 fs0).1) :
    (image_resize_and_add_caption img tempDir max_file_size fs).1 = none ∧
      fs_get (image_resize_and_add_caption img tempDir max_file_size fs).2
        (output_path tempDir img) = none ∧
      ∃ q ∈ selected, q.raisesError = false ∧
        q.encodedSize ≤ max_file_size ∧ p = output_path tempDir q := by
  refine ⟨?_, ?_, ?_⟩
  · simp [image_resize_and_add_caption, hr, hsz]
  · simp only [image_resize_and_add_caption, hr, Bool.false_eq_true,
      if_false, if_pos hsz]
    exact fs_get_remove _ _
  · rw [process_loop_finals] at hp
    obtain ⟨q, hqmem, hqp⟩ := List.mem_map.mp hp
    obtain ⟨hqsel, hqacc⟩ := List.mem_filter.mp hqmem
    simp only [accepted, Bool.and_eq_true, Bool.not_eq_true',
      decide_eq_true_eq] at hqacc
    exact ⟨q, hqsel, hqacc.1, hqacc.2, hqp.symm⟩

/-- Concrete chunk of data for the loop witnesses: an image accepted within
the budget. -/
def imgOk : ImgFile := ⟨"ok.jpg", false, 5⟩

/-- Concrete oversized image for the C1 witness. -/
def imgBig : ImgFile := ⟨"big.jpg", false, 100⟩

/-- C1 witness: with a 10-byte budget, the 100-byte `imgBig` is rejected
with its file removed, and the accepted output of a run over `[imgOk]`
comes from `imgOk`, which fits the budget. -/
theorem C1_size_budget_enforced_witness :
    (imgBig.raisesError = false ∧ 10 < imgBig.encodedSize ∧
        "t/ok.jpg" ∈ (process_loop "t" 10 500 [imgOk] 0 []).1) ∧
      ((image_resize_and_add_caption imgBig "t" 10 []).1 = none ∧
        fs_get (image_resize_and_add_caption imgBig "t" 10 []).2
          (output_path "t" imgBig) = none ∧
        ∃ q ∈ [imgOk], q.raisesError = false ∧
          q.encodedSize ≤ 10 ∧ "t/ok.jpg" = output_path "t" q) :=
  ⟨⟨rfl, by decide, by decide⟩,
    C1_size_budget_enforced "t" 10 500 imgBig [] [imgOk] [] "t/ok.jpg"
      rfl (by decide) (by decide)⟩

/-- C4: an image whose processing raises an exception yields `none` with the
temporary directory untouched (the embedded function is total, modelling
the catch-all handler), and the loop simply skips it: the accepted outputs
and final directory state are those of the remaining images, while a
progress event is still emitted for the failed image — the loop never
aborts. -/
theorem C4_per_image_failure_isolated (tempDir : String)
    (max_file_size max_photos : ℕ) (img : ImgFile) (rest : List ImgFile)
    (i : ℕ) (fs : FS) (h : img.raisesError = true) :
    image_resize_and_add_caption img tempDir max_file_size fs = (none, fs) ∧
      (process_loop tempDir max_file_size max_photos (img :: rest) i fs).1 =
        (process_loop tempDir max_file_size max_photos rest (i + 1) fs).1 ∧
      (process_loop tempDir max_file_size max_photos (img :: rest) i fs).2.1 =
        (i + 1, max_photos) ::
          (process_loop tempDir max_file_size max_photos rest (i + 1) fs).2.1 ∧
      (process_loop tempDir max_file_size max_photos (img :: rest) i fs).2.2 =
        (process_loop tempDir max_file_size max_photos rest (i + 1) fs).2.2 := by
  refine ⟨?_, ?_, ?_, ?_⟩ <;>
    simp [process_loop, image_resize_and_add_caption, h]

/-- Concrete failing image for the C4 witness. -/
def imgBad : ImgFile := ⟨"bad.jpg", true, 0⟩

/-- C4 witness: a corrupt first image is skipped and the following image is
still processed and accepted. -/
theorem C4_per_image_failure_isolated_witness :
    (imgBad.raisesError = true) ∧
      (image_resize_and_add_caption imgBad "t" 10 [] = (none, []) ∧
        (process_loop "t" 10 500 [imgBad, imgOk] 0 []).1 =
          (process_loop "t" 10 500 [imgOk] 1 []).1 ∧
        (process_loop "t" 10 500 [imgBad, imgOk] 0 []).2.1 =
          (1, 500) :: (process_loop "t" 10 500 [imgOk] 1 []).2.1 ∧
        (process_loop "t" 10 500 [imgBad, imgOk] 0 []).2.2 =
          (process_loop "t" 10 500 [imgOk] 1 []).2.2) :=
  ⟨rfl, C4_per_image_failure_isolated "t" 10 500 imgBad [imgOk] 0 [] rfl⟩

/-- C7: a candidate list no longer than `max_photos` is used unchanged
(order preserved); a longer list is reduced, by a sampler drawing distinct
positions without replacement, to exactly `max_photos` distinct entries;
and the accepted outputs are the order-preserving image (a filter-then-map)
of the selected list, so relative order is always preserved. -/
theorem C7_selection_and_order (sample : List ImgFile → ℕ → List ImgFile)
    (image_files : List ImgFile) (max_photos : ℕ) (tempDir : String)
    (max_file_size : ℕ) (fs : FS)
    (hnd : image_files.Nodup)
    (hlen : max_photos < image_files.length →
      (sample image_files max_photos).length = max_photos)
    (hsub : max_photos < image_files.length →
      List.Subperm (sample image_files max_photos) image_files) :
    (image_files.length ≤ max_photos →
      select_images sample image_files max_photos = image_files) ∧
      (max_photos < image_files.length →
        (select_images sample image_files max_photos).length = max_photos ∧
        (select_images sample image_files max_photos).Nodup) ∧
      (process_loop tempDir max_file_size max_photos
          (select_images sample image_files max_photos) 0 fs).1 =
        ((select_images sample image_files max_photos).filter
            (accepted max_file_size)).map (output_path tempDir) := by
  refine ⟨?_, ?_, process_loop_finals _ _ _ _ 0 fs⟩
  · intro hle
    unfold select_images
    rw [if_neg (Nat.not_lt.mpr hle)]
  · intro hgt
    unfold select_images
    rw [if_pos hgt]
    refine ⟨hlen hgt, ?_⟩
    obtain ⟨l, hperm, hsubl⟩ := hsub hgt
    exact hperm.nodup_iff.mp (hsubl.nodup hnd)

/-- C7 witness: with a take-first sampler, a 2-element candidate list and
`max_photos = 1`, the selection keeps exactly one distinct element and the
run's outputs are the filtered map of the selection. -/
theorem C7_selection_and_order_witness :
    ([imgOk, imgBad].Nodup ∧
        (1 < [imgOk, imgBad].length →
          (([imgOk, imgBad].take 1).length = 1)) ∧
        (1 < [imgOk, imgBad].length →
          List.Subperm ([imgOk, imgBad].take 1) [imgOk, imgBad])) ∧
      (([imgOk, imgBad].length ≤ 1 →
          select_images (fun l k => l.take k) [imgOk, imgBad] 1 =
            [imgOk, imgBad]) ∧
        (1 < [imgOk, imgBad].length →
          (select_images (fun l k => l.take k) [imgOk, imgBad] 1).length = 1 ∧
          (select_images (fun l k => l.take k) [imgOk, imgBad] 1).Nodup) ∧
        (process_loop "t" 10 1
            (select_images (fun l k => l.take k) [imgOk, imgBad] 1) 0 []).1 =
          ((select_images (fun l k => l.take k) [imgOk, imgBad] 1).filter
              (accepted 10)).map (output_path "t")) :=
  ⟨⟨by decide, fun _ => by decide,
      fun _ => ⟨[imgOk], List.Perm.refl _, (List.nil_sublist _).cons₂ imgOk⟩⟩,
    C7_selection_and_order (fun l k => l.take k) [imgOk, imgBad] 1 "t" 10 []
      (by decide) (fun _ => by decide)
      (fun _ => ⟨[imgOk], List.Perm.refl _, (List.nil_sublist _).cons₂ imgOk⟩)⟩

/-- C8 counterexample: one selected candidate with configured
`max_photos = 500` — the loop reports the event `(1, 500)`: the total passed
to the progress sink is the configured maximum photo count (500), not the
number of selected candidates (1). -/
theorem C8_total_counterexample :
    (process_loop "t" 10 500 [imgOk] 0 []).2.1 = [(1, 500)] ∧
      (process_loop "t" 10 500 [imgOk] 0 []).2.1 ≠ [(1, [imgOk].length)] ∧
      [imgOk].length = 1 := by
  refine ⟨?_, ?_, ?_⟩ <;> decide

/-- C8 (amended): after every selected image — accepted or skipped — the
loop reports a progress event whose first component is the number of images
processed so far and whose second component is the configured maximum photo
count `max_photos` (equal to the selected-candidate count only when at
least `max_photos` candidates exist); elapsed wall-clock seconds, also
passed to the sink, are real time and are outside the model. -/
theorem C8_progress_reported (tempDir : String) (max_file_size max_photos : ℕ)
    (l : List ImgFile) (i : ℕ) (fs : FS) :
    (process_loop tempDir max_file_size max_photos l i fs).2.1 =
      (List.range l.length).map (fun k => (i + k + 1, max_photos)) := by
  induction l generalizing i fs with
  | nil => rfl
  | cons img rest ih =>
    show (i + 1, max_photos) ::
        (process_loop tempDir max_file_size max_photos rest (i + 1) _).2.1 = _
    rw [ih, List.length_cons, List.range_succ_eq_map, List.map_cons,
      List.map_map]
    refine congrArg₂ _ (by simp) ?_
    refine List.map_congr_left ?_
    intro k _
    simp only [Function.comp_apply, Nat.succ_eq_add_one]
    refine congrArg₂ _ (by omega) rfl

/-- C10: two selected images with the same file basename are written to the
same output path in the temporary directory; when both are accepted, the
returned sequence contains that path twice and the file at the path holds
the later-processed image's bytes (the second write overwrote the first). -/
theorem C10_basename_collision (tempDir : String)
    (max_file_size max_photos : ℕ) (A B : ImgFile) (i : ℕ) (fs : FS)
    (hbase : A.basename = B.basename)
    (hA : A.raisesError = false) (hB : B.raisesError = false)
    (hsa : A.encodedSize ≤ max_file_size) (hsb : B.encodedSize ≤ max_file_size) :
    output_path tempDir A = output_path tempDir B ∧
      (process_loop tempDir max_file_size max_photos [A, B] i fs).1 =
        [output_path tempDir A, output_path tempDir A] ∧
      fs_get (process_loop tempDir max_file_size max_photos [A, B] i fs).2.2
        (output_path tempDir A) = some B.encodedSize := by
  have hpath : output_path tempDir A = output_path tempDir B := by
    unfold output_path
    rw [hbase]
  refine ⟨hpath, ?_, ?_⟩
  · simp [process_loop, image_resize_and_add_caption, hA, hB,
      Nat.not_lt.mpr hsa, Nat.not_lt.mpr hsb, hpath]
  · simp only [process_loop, image_resize_and_add_caption, hA,
      Bool.false_eq_true, if_false, hB, Nat.not_lt.mpr hsa, if_neg,
      Nat.not_lt.mpr hsb]
    rw [hpath]
    exact fs_get_set _ _ _

/-- Concrete colliding images for the C10 witness. -/
def imgDupA : ImgFile := ⟨"dup.jpg", false, 3⟩

/-- Second image with the same basename as `imgDupA` but different bytes. -/
def imgDupB : ImgFile := ⟨"dup.jpg", false, 7⟩

/-- C10 witness: both accepted 3- and 7-byte images named `dup.jpg` produce
the duplicate path `t/dup.jpg` twice, and the file left on disk has the
second image's size 7. -/
theorem C10_basename_collision_witness :
    (imgDupA.basename = imgDupB.basename ∧
        imgDupA.raisesError = false ∧ imgDupB.raisesError = false ∧
        imgDupA.encodedSize ≤ 10 ∧ imgDupB.encodedSize ≤ 10) ∧
      (output_path "t" imgDupA = output_path "t" imgDupB ∧
        (process_loop "t" 10 500 [imgDupA, imgDupB] 0 []).1 =
          [output_path "t" imgDupA, output_path "t" imgDupA] ∧
        fs_get (process_loop "t" 10 500 [imgDupA, imgDupB] 0 []).2.2
          (output_path "t" imgDupA) = some imgDupB.encodedSize) :=
  ⟨⟨rfl, rfl, rfl, by decide, by decide⟩,
    C10_basename_collision "t" 10 500 imgDupA imgDupB 0 [] rfl rfl rfl
      (by decide) (by decide)⟩

end NixUpload
